import Mathlib

/-!
# k8s-cluster-health-checker: autoscaler loop and cluster-state aggregator

A shallow embedding of `backend/health/autoscaler.go`, `backend/health/monitor.go`
and `backend/main.go`.

Modelling conventions.

* The package-level variables of package `health` (the five Prometheus gauges and
  `currentReplicas`) form one explicit record, `HealthState`, threaded through the
  functions that can touch them.  The mutex `mu` serialises the loop bodies; the
  embedding is the sequential semantics of one body.
* `cpuLoad` is a `float64`.  The loop body only compares it with the constants 75
  and 35 and stores it in a gauge; on finite floats both are exact, so a load is a
  rational number (`rand.Float64()*80 + 20` is never NaN or infinite).
* `currentReplicas` is a Go `int`.  It is incremented only below 10 and decremented
  only above 2, so no machine overflow can occur and `Int` is exact.
* A gauge holds a `float64`; `float64(currentReplicas)` is exact for every counter of
  magnitude below `2^53`, so the gauge value is the counter cast to a rational.
* `log.Printf` output is not part of the state.
-/

namespace health

/-! ## Package state -/

/-- The package-level variables of package `health`: the gauges declared in
`monitor.go` and `autoscaler.go`, and the replica counter. -/
structure HealthState where
  NodeReadyGauge : ℚ
  PodRunningGauge : ℚ
  PodFailedGauge : ℚ
  CPUUtilizationGauge : ℚ
  DesiredReplicasGauge : ℚ
  currentReplicas : Int
  deriving DecidableEq, Repr

/-- State at program start: fresh gauges read 0, `currentReplicas = 3`. -/
def initState : HealthState :=
  { NodeReadyGauge := 0, PodRunningGauge := 0, PodFailedGauge := 0,
    CPUUtilizationGauge := 0, DesiredReplicasGauge := 0, currentReplicas := 3 }

/-! ## `autoscaler.go` -/

/-- The scaling decision of `SimulateNodeScaling` (the `if / else if` of the loop
body) as a function of the sampled load and the counter. -/
def scale (cpuLoad : ℚ) (currentReplicas : Int) : Int :=
  if cpuLoad > 75 ∧ currentReplicas < 10 then
    currentReplicas + 1
  else if cpuLoad < 35 ∧ currentReplicas > 2 then
    currentReplicas - 1
  else
    currentReplicas

/-- One iteration of the `for range ticker.C` loop of `SimulateNodeScaling`, for the
load `cpuLoad` sampled in that iteration.  The value stored in `DesiredReplicasGauge`
is `float64(currentReplicas)`, which is the counter itself when the counter is below
`2^53` in magnitude; for larger counters the conversion rounds and the field here does
not follow it (the counter component is exact for every counter). -/
def tick (cpuLoad : ℚ) (s : HealthState) : HealthState :=
  let s1 := { s with CPUUtilizationGauge := cpuLoad }
  let s2 := { s1 with currentReplicas := scale cpuLoad s1.currentReplicas }
  { s2 with DesiredReplicasGauge := (s2.currentReplicas : ℚ) }

/-- The loop of `SimulateNodeScaling` run for as many iterations as there are sampled
loads, in order. -/
def SimulateNodeScaling (loads : List ℚ) (s : HealthState) : HealthState :=
  loads.foldl (fun st cpuLoad => tick cpuLoad st) s

end health

/-! ## The cluster API objects read by the aggregators

Only the fields the code reads are kept.  `Type_` stands for the Go field `Type`
of a node condition. -/

/-- A node condition: the `Type` and `Status` strings. -/
structure NodeCondition where
  Type_ : String
  Status : String
  deriving DecidableEq, Repr

/-- The status of a node: its list of conditions. -/
structure NodeStatus where
  Conditions : List NodeCondition
  deriving DecidableEq, Repr

/-- A node of the cluster. -/
structure Node where
  Status : NodeStatus
  deriving DecidableEq, Repr

/-- The status of a pod: its phase string. -/
structure PodStatus where
  Phase : String
  deriving DecidableEq, Repr

/-- A pod of the cluster. -/
structure Pod where
  Status : PodStatus
  deriving DecidableEq, Repr

/-- What the cluster answers to the two list queries made through the clientset:
`Nodes` is the outcome of `CoreV1().Nodes().List`, `Pods` the outcome of
`CoreV1().Pods("").List`; `.error err` is a non-nil `err`. -/
structure Clientset (ε : Type) where
  Nodes : Except ε (List Node)
  Pods : Except ε (List Pod)

namespace health

/-! ## `monitor.go` -/

/-- The struct `ClusterHealth` of package `health`; `{}` is the zero value. -/
structure ClusterHealth where
  NodeCount : Int := 0
  ReadyNodes : Int := 0
  TotalPods : Int := 0
  RunningPods : Int := 0
  FailedPods : Int := 0
  deriving DecidableEq, Repr

/-- The body of the inner loop over `node.Status.Conditions`. -/
def conditionStep (stats : ClusterHealth) (condition : NodeCondition) : ClusterHealth :=
  if condition.Type_ = "Ready" ∧ condition.Status = "True" then
    { stats with ReadyNodes := stats.ReadyNodes + 1 }
  else
    stats

/-- The body of the loop over `nodes.Items`: the inner loop over the conditions of
one node. -/
def nodeStep (stats : ClusterHealth) (node : Node) : ClusterHealth :=
  node.Status.Conditions.foldl conditionStep stats

/-- The body of the loop over `pods.Items`: the `switch pod.Status.Phase`. -/
def podStep (stats : ClusterHealth) (pod : Pod) : ClusterHealth :=
  if pod.Status.Phase = "Running" then
    { stats with RunningPods := stats.RunningPods + 1 }
  else if pod.Status.Phase = "Failed" then
    { stats with FailedPods := stats.FailedPods + 1 }
  else
    stats

/-- The function `CheckClusterHealth` of `monitor.go`.  The result is the Go pair
`(*ClusterHealth, error)` with `none` for `nil`; the second component of the value
is the package state after the call (the body sets no gauge). -/
def CheckClusterHealth {ε : Type} (clientset : Clientset ε) (g : HealthState) :
    (Option ClusterHealth × Option ε) × HealthState :=
  let stats : ClusterHealth := {}
  match clientset.Nodes with
  | .error err => ((none, some err), g)
  | .ok nodes =>
    let stats := { stats with NodeCount := (nodes.length : Int) }
    let stats := nodes.foldl nodeStep stats
    match clientset.Pods with
    | .error err => ((none, some err), g)
    | .ok pods =>
      let stats := { stats with TotalPods := (pods.length : Int) }
      let stats := pods.foldl podStep stats
      ((some stats, none), g)

end health

/-! ## `main.go` -/

namespace main

/-- The struct `ClusterHealth` of package `main`. -/
structure ClusterHealth where
  NodeCount : Int := 0
  ReadyNodes : Int := 0
  TotalPods : Int := 0
  RunningPods : Int := 0
  FailedPods : Int := 0
  deriving DecidableEq, Repr

/-- The body of the inner loop over `node.Status.Conditions`. -/
def conditionStep (stats : ClusterHealth) (condition : NodeCondition) : ClusterHealth :=
  if condition.Type_ = "Ready" ∧ condition.Status = "True" then
    { stats with ReadyNodes := stats.ReadyNodes + 1 }
  else
    stats

/-- The body of the loop over `nodes.Items`. -/
def nodeStep (stats : ClusterHealth) (node : Node) : ClusterHealth :=
  node.Status.Conditions.foldl conditionStep stats

/-- The body of the loop over `pods.Items`. -/
def podStep (stats : ClusterHealth) (pod : Pod) : ClusterHealth :=
  if pod.Status.Phase = "Running" then
    { stats with RunningPods := stats.RunningPods + 1 }
  else if pod.Status.Phase = "Failed" then
    { stats with FailedPods := stats.FailedPods + 1 }
  else
    stats

/-- The function `checkClusterHealth` of `main.go`: both queries first, then the
counting.  It touches no package state of `health`. -/
def checkClusterHealth {ε : Type} (clientset : Clientset ε) :
    Option ClusterHealth × Option ε :=
  match clientset.Nodes with
  | .error err => (none, some err)
  | .ok nodes =>
    match clientset.Pods with
    | .error err => (none, some err)
    | .ok pods =>
      let stats : ClusterHealth := {}
      let stats := { stats with NodeCount := (nodes.length : Int) }
      let stats := nodes.foldl nodeStep stats
      let stats := { stats with TotalPods := (pods.length : Int) }
      let stats := pods.foldl podStep stats
      (some stats, none)

end main

/-! ## Words of the specification -/

/-- A node is ready when it carries a condition of kind "Ready" with status "True". -/
def isReadyNode (node : Node) : Bool :=
  node.Status.Conditions.any (fun c => decide (c.Type_ = "Ready" ∧ c.Status = "True"))

/-- The number of ready nodes of a node list, as the specification words it. -/
def readyNodeCount (nodes : List Node) : Int :=
  ((nodes.filter isReadyNode).length : Int)

/-- A node carrying the given `(Type, Status)` pairs as its conditions. -/
def mkNode (conds : List (String × String)) : Node :=
  { Status := { Conditions := conds.map (fun p => { Type_ := p.1, Status := p.2 }) } }

/-- A pod in the given phase. -/
def mkPod (phase : String) : Pod :=
  { Status := { Phase := phase } }

/-- The number of `("Ready", "True")` conditions in a condition list. -/
def readyTrueConditions (conds : List NodeCondition) : Nat :=
  (conds.filter (fun c => decide (c.Type_ = "Ready" ∧ c.Status = "True"))).length

/-- The number of `("Ready", "True")` conditions summed over the nodes of a list. -/
def readyTrueConditionsTotal (nodes : List Node) : Nat :=
  (nodes.map (fun node => readyTrueConditions node.Status.Conditions)).sum

/-- The number of pods of a list whose phase equals the given string. -/
def podsInPhase (phase : String) (pods : List Pod) : Nat :=
  (pods.filter (fun pod => decide (pod.Status.Phase = phase))).length

/-- The number of pods of a list whose phase is neither "Running" nor "Failed". -/
def podsInOtherPhase (pods : List Pod) : Nat :=
  (pods.filter (fun pod =>
    decide (pod.Status.Phase ≠ "Running" ∧ pod.Status.Phase ≠ "Failed"))).length

/-! ## The guards of the scaling decision -/

namespace health

/-- The guard of the `if` of the loop body of `SimulateNodeScaling`: the scale-up
condition `cpuLoad > 75 && currentReplicas < 10`. -/
def scaleUpCond (cpuLoad : ℚ) (currentReplicas : Int) : Prop :=
  cpuLoad > 75 ∧ currentReplicas < 10

/-- The guard of the `else if` of the loop body: the scale-down condition
`cpuLoad < 35 && currentReplicas > 2`. -/
def scaleDownCond (cpuLoad : ℚ) (currentReplicas : Int) : Prop :=
  cpuLoad < 35 ∧ currentReplicas > 2

instance (cpuLoad : ℚ) (currentReplicas : Int) :
    Decidable (scaleUpCond cpuLoad currentReplicas) := by
  unfold scaleUpCond; infer_instance

instance (cpuLoad : ℚ) (currentReplicas : Int) :
    Decidable (scaleDownCond cpuLoad currentReplicas) := by
  unfold scaleDownCond; infer_instance

/-- The five counts of a snapshot, in the order of the struct fields. -/
def ClusterHealth.counts (s : ClusterHealth) : Int × Int × Int × Int × Int :=
  (s.NodeCount, s.ReadyNodes, s.TotalPods, s.RunningPods, s.FailedPods)

end health

/-- The five counts of a snapshot of package `main`, in the order of the struct
fields. -/
def main.ClusterHealth.counts (s : main.ClusterHealth) : Int × Int × Int × Int × Int :=
  (s.NodeCount, s.ReadyNodes, s.TotalPods, s.RunningPods, s.FailedPods)

/-- The number of conditions of Type "Ready", in any status, in a condition list. -/
def readyTypeConditions (conds : List NodeCondition) : Nat :=
  (conds.filter (fun c => decide (c.Type_ = "Ready"))).length

/-! ## `float64` arithmetic of the load sampler

`cpuLoad := rand.Float64()*80 + 20` is evaluated in `float64`.  Finite `float64`
values are rational numbers, and an arithmetic operation returns a `float64` value
nearest to the exact result (ties are resolved to the even significand; the theorems
hold for either choice).  Go may evaluate `x*y + z` with one rounding (fused) or with
two; both are covered. -/

/-- A rational number is a finite `float64` value: `m * 2^e` with an integer
significand `|m| < 2^53` and an exponent `-1074 ≤ e ≤ 971`. -/
def IsFloat64 (q : ℚ) : Prop :=
  ∃ (m : ℤ) (e : ℤ), |m| < 2 ^ 53 ∧ -1074 ≤ e ∧ e ≤ 971 ∧ q = (m : ℚ) * (2 : ℚ) ^ e

/-- The value `y` is a correctly rounded `float64` result for the exact value `x`: it is
a `float64` value and no `float64` value is strictly closer to `x`. -/
def IsRounded (x y : ℚ) : Prop :=
  IsFloat64 y ∧ ∀ z : ℚ, IsFloat64 z → |y - x| ≤ |z - x|

namespace health

/-- The value `cpuLoad` is a result of `rand.Float64()*80 + 20` in `float64` arithmetic
for the draw `r`: either the product is rounded to `t` and then the sum `t + 20` is
rounded, or the exact value `r*80 + 20` is rounded once. -/
def IsSampledLoad (r cpuLoad : ℚ) : Prop :=
  (∃ t : ℚ, IsRounded (r * 80) t ∧ IsRounded (t + 20) cpuLoad) ∨
    IsRounded (r * 80 + 20) cpuLoad

end health

/-! # Theorems -/

/-! ## Autoscaler: shared lemmas -/

/-- The counter after a tick is the scaling decision applied to the counter before. -/
theorem tick_currentReplicas (cpuLoad : ℚ) (s : health.HealthState) :
    (health.tick cpuLoad s).currentReplicas = health.scale cpuLoad s.currentReplicas := rfl

/-- The scaling decision keeps a counter within `[2, 10]` there. -/
theorem scale_mem_bounds (cpuLoad : ℚ) (c : Int) (h : 2 ≤ c ∧ c ≤ 10) :
    2 ≤ health.scale cpuLoad c ∧ health.scale cpuLoad c ≤ 10 := by
  unfold health.scale
  split_ifs with h1 h2
  · omega
  · omega
  · exact h

/-- Running the loop over `loads ++ [l]` is running it over `loads`, then one tick. -/
theorem SimulateNodeScaling_append_singleton (loads : List ℚ) (l : ℚ)
    (s : health.HealthState) :
    health.SimulateNodeScaling (loads ++ [l]) s
      = health.tick l (health.SimulateNodeScaling loads s) := by
  simp [health.SimulateNodeScaling, List.foldl_append]

/-- The bounds `[2, 10]` on the counter are preserved by any run of the loop. -/
theorem SimulateNodeScaling_mem_bounds (loads : List ℚ) :
    ∀ s : health.HealthState, 2 ≤ s.currentReplicas ∧ s.currentReplicas ≤ 10 →
      2 ≤ (health.SimulateNodeScaling loads s).currentReplicas ∧
        (health.SimulateNodeScaling loads s).currentReplicas ≤ 10 := by
  induction loads with
  | nil => intro s h; simpa [health.SimulateNodeScaling] using h
  | cons l rest ih =>
    intro s h
    have hstep : 2 ≤ (health.tick l s).currentReplicas ∧
        (health.tick l s).currentReplicas ≤ 10 := by
      rw [tick_currentReplicas]; exact scale_mem_bounds l _ h
    simpa [health.SimulateNodeScaling] using ih (health.tick l s) hstep

/-! ## Autoscaler: claims -/

/-- C1: starting from the initial state (`currentReplicas = 3`) or from any state with
`2 ≤ currentReplicas ≤ 10`, for every finite sequence of sampled loads, the counter
satisfies `2 ≤ currentReplicas ≤ 10` after every tick of the run, i.e. after each of
its first `k` ticks for every `k`. -/
theorem C1_replicas_within_bounds (s : health.HealthState) (loads : List ℚ) (k : Nat)
    (h : s = health.initState ∨ (2 ≤ s.currentReplicas ∧ s.currentReplicas ≤ 10)) :
    2 ≤ (health.SimulateNodeScaling (loads.take k) s).currentReplicas ∧
      (health.SimulateNodeScaling (loads.take k) s).currentReplicas ≤ 10 := by
  apply SimulateNodeScaling_mem_bounds
  rcases h with h | h
  · subst h; decide
  · exact h

/-- C1 at the initial state, loads 90, 20, 50, 99, after the first three ticks. -/
theorem C1_replicas_within_bounds_witness :
    (health.initState = health.initState ∨
      (2 ≤ health.initState.currentReplicas ∧ health.initState.currentReplicas ≤ 10)) ∧
    (2 ≤ (health.SimulateNodeScaling ([90, 20, 50, 99].take 3)
        health.initState).currentReplicas ∧
      (health.SimulateNodeScaling ([90, 20, 50, 99].take 3)
        health.initState).currentReplicas ≤ 10) :=
  ⟨Or.inl rfl, C1_replicas_within_bounds health.initState [90, 20, 50, 99] 3 (Or.inl rfl)⟩

/-- C2: for every tick with sampled load `> 75` and pre-tick `currentReplicas < 10`,
the post-tick `currentReplicas` is the pre-tick value plus exactly 1. -/
theorem C2_scale_up (s : health.HealthState) (cpuLoad : ℚ)
    (hload : cpuLoad > 75) (hcap : s.currentReplicas < 10) :
    (health.tick cpuLoad s).currentReplicas = s.currentReplicas + 1 := by
  rw [tick_currentReplicas]
  unfold health.scale
  rw [if_pos ⟨hload, hcap⟩]

/-- C2 at pre = 5, load = 90: post = 6. -/
theorem C2_scale_up_witness :
    ((90 : ℚ) > 75 ∧ ({ health.initState with currentReplicas := 5 }).currentReplicas < 10) ∧
    (health.tick 90 { health.initState with currentReplicas := 5 }).currentReplicas = 6 :=
  ⟨⟨by norm_num, by decide⟩,
    C2_scale_up { health.initState with currentReplicas := 5 } 90 (by norm_num) (by decide)⟩

/-- C3: for every tick with sampled load `< 35` and pre-tick `currentReplicas > 2`,
the post-tick `currentReplicas` is the pre-tick value minus exactly 1. -/
theorem C3_scale_down (s : health.HealthState) (cpuLoad : ℚ)
    (hload : cpuLoad < 35) (hfloor : s.currentReplicas > 2) :
    (health.tick cpuLoad s).currentReplicas = s.currentReplicas - 1 := by
  rw [tick_currentReplicas]
  unfold health.scale
  have hnot : ¬ (cpuLoad > 75 ∧ s.currentReplicas < 10) := by
    rintro ⟨h75, -⟩
    linarith
  rw [if_neg hnot, if_pos ⟨hload, hfloor⟩]

/-- C3 at pre = 4, load = 20: post = 3. -/
theorem C3_scale_down_witness :
    ((20 : ℚ) < 35 ∧ ({ health.initState with currentReplicas := 4 }).currentReplicas > 2) ∧
    (health.tick 20 { health.initState with currentReplicas := 4 }).currentReplicas = 3 :=
  ⟨⟨by norm_num, by decide⟩,
    C3_scale_down { health.initState with currentReplicas := 4 } 20 (by norm_num) (by decide)⟩

/-- C4: for every tick with `35 ≤ load ≤ 75`, or with the counter already at the bound
in the direction the load indicates (`load > 75` with `currentReplicas = 10`, or
`load < 35` with `currentReplicas = 2`), `currentReplicas` is unchanged by the tick. -/
theorem C4_no_change (s : health.HealthState) (cpuLoad : ℚ)
    (h : (35 ≤ cpuLoad ∧ cpuLoad ≤ 75) ∨ (cpuLoad > 75 ∧ s.currentReplicas = 10) ∨
      (cpuLoad < 35 ∧ s.currentReplicas = 2)) :
    (health.tick cpuLoad s).currentReplicas = s.currentReplicas := by
  rw [tick_currentReplicas]
  unfold health.scale
  have hup : ¬ (cpuLoad > 75 ∧ s.currentReplicas < 10) := by
    rintro ⟨h75, hlt⟩
    rcases h with ⟨-, hle⟩ | ⟨-, heq⟩ | ⟨h35, -⟩
    · linarith
    · omega
    · linarith
  have hdown : ¬ (cpuLoad < 35 ∧ s.currentReplicas > 2) := by
    rintro ⟨h35, hgt⟩
    rcases h with ⟨hge, -⟩ | ⟨h75, -⟩ | ⟨-, heq⟩
    · linarith
    · linarith
    · omega
  rw [if_neg hup, if_neg hdown]

/-- C4 at pre = 10, load = 95: post = 10. -/
theorem C4_no_change_witness :
    (((35 : ℚ) ≤ 95 ∧ (95 : ℚ) ≤ 75) ∨
      ((95 : ℚ) > 75 ∧ ({ health.initState with currentReplicas := 10 }).currentReplicas = 10) ∨
      ((95 : ℚ) < 35 ∧ ({ health.initState with currentReplicas := 10 }).currentReplicas = 2)) ∧
    (health.tick 95 { health.initState with currentReplicas := 10 }).currentReplicas = 10 :=
  ⟨Or.inr (Or.inl ⟨by norm_num, rfl⟩),
    C4_no_change { health.initState with currentReplicas := 10 } 95
      (Or.inr (Or.inl ⟨by norm_num, rfl⟩))⟩

/-! ## Aggregator: shared lemmas -/

/-- The inner loop adds the number of `("Ready", "True")` conditions of the node to
`ReadyNodes` and changes nothing else. -/
theorem health_nodeStep_eq (node : Node) (stats : health.ClusterHealth) :
    health.nodeStep stats node =
      { stats with
        ReadyNodes := stats.ReadyNodes + (readyTrueConditions node.Status.Conditions : Int) } := by
  unfold health.nodeStep readyTrueConditions
  generalize node.Status.Conditions = conds
  induction conds generalizing stats with
  | nil => simp
  | cons c rest ih =>
    rw [List.foldl_cons, ih]
    by_cases hc : c.Type_ = "Ready" ∧ c.Status = "True"
    · simp [health.conditionStep, hc, List.filter_cons]
      omega
    · simp [health.conditionStep, hc, List.filter_cons]

/-- The loop over the nodes adds the total number of `("Ready", "True")` conditions
to `ReadyNodes` and changes nothing else. -/
theorem health_nodes_foldl_eq (nodes : List Node) (stats : health.ClusterHealth) :
    nodes.foldl health.nodeStep stats =
      { stats with
        ReadyNodes := stats.ReadyNodes + (readyTrueConditionsTotal nodes : Int) } := by
  induction nodes generalizing stats with
  | nil => simp [readyTrueConditionsTotal]
  | cons n rest ih =>
    rw [List.foldl_cons, ih, health_nodeStep_eq]
    simp [readyTrueConditionsTotal]
    omega

/-- The loop over the pods adds the number of "Running" pods to `RunningPods`, the
number of "Failed" pods to `FailedPods`, and changes nothing else. -/
theorem health_pods_foldl_eq (pods : List Pod) (stats : health.ClusterHealth) :
    pods.foldl health.podStep stats =
      { stats with
        RunningPods := stats.RunningPods + (podsInPhase "Running" pods : Int)
        FailedPods := stats.FailedPods + (podsInPhase "Failed" pods : Int) } := by
  induction pods generalizing stats with
  | nil => simp [podsInPhase]
  | cons pod rest ih =>
    rw [List.foldl_cons, ih]
    by_cases hr : pod.Status.Phase = "Running"
    · have hf : ¬ pod.Status.Phase = "Failed" := by rw [hr]; decide
      simp [health.podStep, podsInPhase, hr, List.filter_cons]
      omega
    · by_cases hf : pod.Status.Phase = "Failed"
      · simp [health.podStep, podsInPhase, hr, hf, List.filter_cons]
        omega
      · simp [health.podStep, podsInPhase, hr, hf, List.filter_cons]

/-- The snapshot `CheckClusterHealth` returns when both queries succeed. -/
theorem health_CheckClusterHealth_ok {ε : Type} (nodes : List Node) (pods : List Pod)
    (g : health.HealthState) :
    health.CheckClusterHealth ({ Nodes := .ok nodes, Pods := .ok pods } : Clientset ε) g =
      ((some { NodeCount := (nodes.length : Int)
               ReadyNodes := (readyTrueConditionsTotal nodes : Int)
               TotalPods := (pods.length : Int)
               RunningPods := (podsInPhase "Running" pods : Int)
               FailedPods := (podsInPhase "Failed" pods : Int) }, none), g) := by
  simp [health.CheckClusterHealth, health_nodes_foldl_eq, health_pods_foldl_eq]

/-- Every pod is in exactly one of: phase "Running", phase "Failed", another phase. -/
theorem podsInPhase_partition (pods : List Pod) :
    podsInPhase "Running" pods + podsInPhase "Failed" pods + podsInOtherPhase pods
      = pods.length := by
  induction pods with
  | nil => simp [podsInPhase, podsInOtherPhase]
  | cons pod rest ih =>
    unfold podsInPhase podsInOtherPhase at ih ⊢
    by_cases hr : pod.Status.Phase = "Running"
    · have hf : ¬ pod.Status.Phase = "Failed" := by rw [hr]; decide
      simp [hr, List.filter_cons] at ih ⊢
      omega
    · by_cases hf : pod.Status.Phase = "Failed"
      · simp [hr, hf, List.filter_cons] at ih ⊢
        omega
      · simp [hr, hf, List.filter_cons] at ih ⊢
        omega

/-! ## Aggregator: claims -/

/-- C5 (fails on the code): for one node carrying the condition `("Ready", "True")`
twice, both aggregators succeed with `NodeCount = 1` and `ReadyNodes = 2`, so
`ReadyNodes ≤ NodeCount` does not hold for the returned snapshot. -/
theorem C5_ready_nodes_exceed_node_count :
    (health.CheckClusterHealth
        ({ Nodes := .ok [mkNode [("Ready", "True"), ("MemoryPressure", "False"),
                                  ("Ready", "True")]],
           Pods := .ok [] } : Clientset String) health.initState).1
      = (some { NodeCount := 1, ReadyNodes := 2, TotalPods := 0, RunningPods := 0,
                FailedPods := 0 }, none) ∧
    main.checkClusterHealth
        ({ Nodes := .ok [mkNode [("Ready", "True"), ("MemoryPressure", "False"),
                                  ("Ready", "True")]],
           Pods := .ok [] } : Clientset String)
      = (some { NodeCount := 1, ReadyNodes := 2, TotalPods := 0, RunningPods := 0,
                FailedPods := 0 }, none) ∧
    ¬ ((2 : Int) ≤ 1) := by
  decide

/-- C6 (fails on the code): for two nodes, the first carrying `("Ready", "True")`
twice and the second carrying only `("Ready", "False")`, exactly one node is ready in
the words of the specification, yet `CheckClusterHealth` returns `ReadyNodes = 2`:
the first node contributes two, not one. -/
theorem C6_ready_nodes_counts_conditions :
    readyNodeCount [mkNode [("Ready", "True"), ("Ready", "True")],
                    mkNode [("Ready", "False")]] = 1 ∧
    (health.CheckClusterHealth
        ({ Nodes := .ok [mkNode [("Ready", "True"), ("Ready", "True")],
                         mkNode [("Ready", "False")]],
           Pods := .ok [] } : Clientset String) health.initState).1
      = (some { NodeCount := 2, ReadyNodes := 2, TotalPods := 0, RunningPods := 0,
                FailedPods := 0 }, none) := by
  decide

/-- C7: for every list of pods (and every list of nodes), `CheckClusterHealth` succeeds
with a snapshot whose `TotalPods` is the length of the pod list, whose `RunningPods` is
the number of pods with phase "Running" and whose `FailedPods` is the number of pods
with phase "Failed"; the pods in any other phase are counted in `TotalPods` only, so
they are exactly the `TotalPods - RunningPods - FailedPods` remaining ones. -/
theorem C7_pod_counts {ε : Type} (nodes : List Node) (pods : List Pod)
    (g : health.HealthState) :
    ∃ s : health.ClusterHealth,
      (health.CheckClusterHealth ({ Nodes := .ok nodes, Pods := .ok pods } : Clientset ε) g).1
        = (some s, none) ∧
      s.TotalPods = (pods.length : Int) ∧
      s.RunningPods = (podsInPhase "Running" pods : Int) ∧
      s.FailedPods = (podsInPhase "Failed" pods : Int) ∧
      s.TotalPods - s.RunningPods - s.FailedPods = (podsInOtherPhase pods : Int) := by
  refine ⟨_, by rw [health_CheckClusterHealth_ok], rfl, rfl, rfl, ?_⟩
  have h := podsInPhase_partition pods
  simp only
  omega

/-- C8: for every list of pods (and every list of nodes), the snapshot returned by
`CheckClusterHealth` on success satisfies `RunningPods + FailedPods ≤ TotalPods`, and
each of `RunningPods` and `FailedPods` lies between 0 and `TotalPods`. -/
theorem C8_pod_counts_bounded {ε : Type} (nodes : List Node) (pods : List Pod)
    (g : health.HealthState) :
    ∃ s : health.ClusterHealth,
      (health.CheckClusterHealth ({ Nodes := .ok nodes, Pods := .ok pods } : Clientset ε) g).1
        = (some s, none) ∧
      s.RunningPods + s.FailedPods ≤ s.TotalPods ∧
      (0 ≤ s.RunningPods ∧ s.RunningPods ≤ s.TotalPods) ∧
      (0 ≤ s.FailedPods ∧ s.FailedPods ≤ s.TotalPods) := by
  refine ⟨_, by rw [health_CheckClusterHealth_ok], ?_, ⟨?_, ?_⟩, ⟨?_, ?_⟩⟩ <;>
    have h := podsInPhase_partition pods <;> simp only <;> omega

/-- C9: `CheckClusterHealth` fails (returns a non-nil error) iff the node query or the
pod query fails; a failed call returns no snapshot and a call without error returns
one; when the node query fails the error returned is that query's error, unchanged;
when the node query succeeds and the pod query fails it is the pod query's error,
unchanged, and the snapshot is still nil; when both succeed a snapshot is returned
with no error.  `checkClusterHealth` of `main.go` returns the same error and a
snapshot in the same cases. -/
theorem C9_fails_iff_query_fails {ε : Type} (c : Clientset ε) (g : health.HealthState) :
    (((health.CheckClusterHealth c g).1.2 ≠ none) ↔
      ((∃ e, c.Nodes = .error e) ∨ (∃ e, c.Pods = .error e))) ∧
    ((health.CheckClusterHealth c g).1.2 ≠ none → (health.CheckClusterHealth c g).1.1 = none) ∧
    ((health.CheckClusterHealth c g).1.2 = none → (health.CheckClusterHealth c g).1.1 ≠ none) ∧
    (∀ e, c.Nodes = .error e → (health.CheckClusterHealth c g).1 = (none, some e)) ∧
    (∀ nodes e, c.Nodes = .ok nodes → c.Pods = .error e →
      (health.CheckClusterHealth c g).1 = (none, some e)) ∧
    (∀ nodes pods, c.Nodes = .ok nodes → c.Pods = .ok pods →
      ∃ s, (health.CheckClusterHealth c g).1 = (some s, none)) ∧
    ((main.checkClusterHealth c).2 = (health.CheckClusterHealth c g).1.2 ∧
      ((main.checkClusterHealth c).1 = none ↔ (health.CheckClusterHealth c g).1.1 = none)) := by
  obtain ⟨cn, cp⟩ := c
  cases cn with
  | error en =>
    simp [health.CheckClusterHealth, main.checkClusterHealth]
  | ok nodes =>
    cases cp with
    | error ep => simp [health.CheckClusterHealth, main.checkClusterHealth]
    | ok pods => simp [health.CheckClusterHealth, main.checkClusterHealth]

/-- C9 where the node query succeeds and the pod query fails with "pods: forbidden":
the call returns that error and a nil snapshot. -/
theorem C9_fails_iff_query_fails_witness :
    (health.CheckClusterHealth
        ({ Nodes := .ok [mkNode [("Ready", "True")]],
           Pods := .error "pods: forbidden" } : Clientset String) health.initState).1
      = (none, some "pods: forbidden") :=
  (C9_fails_iff_query_fails
      ({ Nodes := .ok [mkNode [("Ready", "True")]],
         Pods := .error "pods: forbidden" } : Clientset String) health.initState).2.2.2.2.1
    [mkNode [("Ready", "True")]] "pods: forbidden" rfl rfl

/-- C10 (fails on the code): with three nodes of which two are ready and two pods, one
running and one failed, the call succeeds with the snapshot `(3, 2, 2, 1, 1)`, all five
values non-zero, and leaves the package state as it was at program start, where every
gauge reads 0: none of the five values was pushed to the sink. -/
theorem C10_gauges_not_set :
    health.CheckClusterHealth
        ({ Nodes := .ok [mkNode [("Ready", "True")], mkNode [("Ready", "False")],
                         mkNode [("Ready", "True")]],
           Pods := .ok [mkPod "Running", mkPod "Failed"] } : Clientset String)
        health.initState
      = ((some { NodeCount := 3, ReadyNodes := 2, TotalPods := 2, RunningPods := 1,
                 FailedPods := 1 }, none), health.initState) ∧
    health.initState.NodeReadyGauge = 0 ∧
    health.initState.PodRunningGauge = 0 ∧
    health.initState.PodFailedGauge = 0 ∧
    health.initState.CPUUtilizationGauge = 0 ∧
    health.initState.DesiredReplicasGauge = 0 ∧
    ¬ (health.initState.NodeReadyGauge = 2 ∧ health.initState.PodRunningGauge = 1 ∧
        health.initState.PodFailedGauge = 1) := by
  decide

/-! ## Autoscaler: gauges, decisions and runs -/

/-- The scaling decision written with its two guards. -/
theorem scale_eq_guards (cpuLoad : ℚ) (c : Int) :
    health.scale cpuLoad c =
      if health.scaleUpCond cpuLoad c then c + 1
      else if health.scaleDownCond cpuLoad c then c - 1
      else c := rfl

/-- A counter below `2^53` in magnitude is still below `2^53` in magnitude after the
scaling decision. -/
theorem scale_abs_lt (cpuLoad : ℚ) (c : Int) (h : |c| < 2 ^ 53) :
    |health.scale cpuLoad c| < 2 ^ 53 := by
  rw [abs_lt] at h ⊢
  unfold health.scale
  split_ifs with h1 h2
  · constructor <;> omega
  · constructor <;> omega
  · exact h

/-- An integer below `2^53` in magnitude is a `float64` value, so converting it with
`float64(...)` is exact. -/
theorem isFloat64_of_int (z : Int) (h : |z| < 2 ^ 53) : IsFloat64 (z : ℚ) :=
  ⟨z, 0, h, by norm_num, by norm_num, by simp⟩

/-- C11: after every tick from a state whose counter is below `2^53` in magnitude (in
particular from every state with `2 ≤ currentReplicas ≤ 10`), the CPU-utilization gauge
holds exactly the load sampled in that tick, and the desired-replicas gauge holds the
counter as it is after the transition (the value the scaling decision gives for the
sampled load and the pre-tick counter), not the pre-tick value; that counter is a
`float64` value, so `float64(currentReplicas)` stores it without rounding. -/
theorem C11_gauges_after_tick (cpuLoad : ℚ) (s : health.HealthState)
    (hc : |s.currentReplicas| < 2 ^ 53) :
    (health.tick cpuLoad s).CPUUtilizationGauge = cpuLoad ∧
    (health.tick cpuLoad s).DesiredReplicasGauge
      = ((health.tick cpuLoad s).currentReplicas : ℚ) ∧
    (health.tick cpuLoad s).DesiredReplicasGauge
      = ((health.scale cpuLoad s.currentReplicas : Int) : ℚ) ∧
    IsFloat64 (((health.tick cpuLoad s).currentReplicas : Int) : ℚ) :=
  ⟨rfl, rfl, rfl, isFloat64_of_int _ (scale_abs_lt cpuLoad s.currentReplicas hc)⟩

/-- C11 at the initial state and load 90: after the tick the CPU gauge reads 90 and the
desired-replicas gauge reads 4, the counter after the scale-up, not 3. -/
theorem C11_gauges_after_tick_witness :
    |health.initState.currentReplicas| < 2 ^ 53 ∧
    (health.tick 90 health.initState).CPUUtilizationGauge = 90 ∧
    (health.tick 90 health.initState).DesiredReplicasGauge = 4 ∧
    (health.tick 90 health.initState).currentReplicas = 4 :=
  ⟨by decide, (C11_gauges_after_tick 90 health.initState (by decide)).1,
    (C11_gauges_after_tick 90 health.initState (by decide)).2.1.trans (by decide),
    by decide⟩

/-- A tick that raises the counter by one sampled a load above 75. -/
theorem scale_up_load (cpuLoad : ℚ) (c : Int) (h : health.scale cpuLoad c = c + 1) :
    cpuLoad > 75 := by
  unfold health.scale at h
  split_ifs at h with h1 h2
  · exact h1.1
  · omega
  · omega

/-- A tick that lowers the counter by one sampled a load below 35. -/
theorem scale_down_load (cpuLoad : ℚ) (c : Int) (h : health.scale cpuLoad c = c - 1) :
    cpuLoad < 35 := by
  unfold health.scale at h
  split_ifs at h with h1 h2
  · omega
  · exact h2.1
  · omega

/-- The state after the first `i + 1` ticks of a run is one tick, for the load at
position `i`, after the state reached by the first `i` ticks. -/
theorem SimulateNodeScaling_take_succ (loads : List ℚ) (s : health.HealthState) (i : Nat)
    (l : ℚ) (hl : loads[i]? = some l) :
    health.SimulateNodeScaling (loads.take (i + 1)) s
      = health.tick l (health.SimulateNodeScaling (loads.take i) s) := by
  rw [List.take_succ, hl]
  exact SimulateNodeScaling_append_singleton _ _ _

/-- C12 (hysteresis): for every start state and every sequence of sampled loads whose
values all lie within one interval `[a, a + 40]`, the run never contains both a
scale-up (a tick raising the counter by one) and a scale-down (a tick lowering it by
one); and two successive ticks make opposite decisions only if their sampled loads
differ by more than 40. -/
theorem C12_hysteresis (s : health.HealthState) (loads : List ℚ) (a : ℚ)
    (h : ∀ l ∈ loads, a ≤ l ∧ l ≤ a + 40) :
    (¬ ∃ i j : Nat, i < loads.length ∧ j < loads.length ∧
        (health.SimulateNodeScaling (loads.take (i + 1)) s).currentReplicas
          = (health.SimulateNodeScaling (loads.take i) s).currentReplicas + 1 ∧
        (health.SimulateNodeScaling (loads.take (j + 1)) s).currentReplicas
          = (health.SimulateNodeScaling (loads.take j) s).currentReplicas - 1) ∧
    (∀ l₁ l₂ : ℚ,
        (((health.tick l₁ s).currentReplicas = s.currentReplicas + 1 ∧
            (health.tick l₂ (health.tick l₁ s)).currentReplicas
              = (health.tick l₁ s).currentReplicas - 1) ∨
          ((health.tick l₁ s).currentReplicas = s.currentReplicas - 1 ∧
            (health.tick l₂ (health.tick l₁ s)).currentReplicas
              = (health.tick l₁ s).currentReplicas + 1)) →
        |l₁ - l₂| > 40) := by
  constructor
  · rintro ⟨i, j, hi, hj, hup, hdown⟩
    have hli : loads[i]? = some loads[i] := List.getElem?_eq_getElem hi
    have hlj : loads[j]? = some loads[j] := List.getElem?_eq_getElem hj
    rw [SimulateNodeScaling_take_succ loads s i _ hli, tick_currentReplicas] at hup
    rw [SimulateNodeScaling_take_succ loads s j _ hlj, tick_currentReplicas] at hdown
    have h1 := scale_up_load _ _ hup
    have h2 := scale_down_load _ _ hdown
    have hi' := h _ (List.getElem_mem hi)
    have hj' := h _ (List.getElem_mem hj)
    linarith [hi'.2, hj'.1]
  · intro l₁ l₂ hcase
    simp only [tick_currentReplicas] at hcase
    rcases hcase with ⟨hu, hd⟩ | ⟨hd, hu⟩
    · have h1 := scale_up_load _ _ hu
      have h2 := scale_down_load _ _ hd
      have : l₁ - l₂ > 40 := by linarith
      exact lt_of_lt_of_le this (le_abs_self _)
    · have h1 := scale_down_load _ _ hd
      have h2 := scale_up_load _ _ hu
      have : l₂ - l₁ > 40 := by linarith
      rw [abs_sub_comm]
      exact lt_of_lt_of_le this (le_abs_self _)

/-- C12 for a load hovering around 75 (loads 74, 76, 73, 77 within `[40, 80]`) from the
initial state: the run has no pair of a scale-up and a scale-down. -/
theorem C12_hysteresis_witness :
    (∀ l ∈ ([74, 76, 73, 77] : List ℚ), (40 : ℚ) ≤ l ∧ l ≤ 40 + 40) ∧
    ¬ ∃ i j : Nat, i < ([74, 76, 73, 77] : List ℚ).length ∧
        j < ([74, 76, 73, 77] : List ℚ).length ∧
        (health.SimulateNodeScaling (([74, 76, 73, 77] : List ℚ).take (i + 1))
            health.initState).currentReplicas
          = (health.SimulateNodeScaling (([74, 76, 73, 77] : List ℚ).take i)
              health.initState).currentReplicas + 1 ∧
        (health.SimulateNodeScaling (([74, 76, 73, 77] : List ℚ).take (j + 1))
            health.initState).currentReplicas
          = (health.SimulateNodeScaling (([74, 76, 73, 77] : List ℚ).take j)
              health.initState).currentReplicas - 1 :=
  ⟨by
      intro l hl
      simp only [List.mem_cons, List.mem_singleton, List.not_mem_nil, or_false] at hl
      rcases hl with rfl | rfl | rfl | rfl <;> norm_num,
    (C12_hysteresis health.initState [74, 76, 73, 77] 40 (by
      intro l hl
      simp only [List.mem_cons, List.mem_singleton, List.not_mem_nil, or_false] at hl
      rcases hl with rfl | rfl | rfl | rfl <;> norm_num)).1⟩

/-- C13 (fails on the code): a counter at its lower bound 2 is raised to 3 by a tick
with load 90, and a counter at its upper bound 10 is lowered to 9 by a tick with load
20; being at a bound does not make the tick a NoOp for every load. -/
theorem C13_bound_is_not_always_noop :
    (health.tick 90 { health.initState with currentReplicas := 2 }).currentReplicas = 3 ∧
    (health.tick 20 { health.initState with currentReplicas := 10 }).currentReplicas = 9 ∧
    ¬ ((health.tick 90 { health.initState with currentReplicas := 2 }).currentReplicas
        = ({ health.initState with currentReplicas := 2 } : health.HealthState).currentReplicas) := by
  decide

/-- C13 (amended): a tick is a NoOp whenever the load is in `[35, 75]` inclusive, or the
counter is at `MAX_REPLICAS = 10` and the load is at least 35, or the counter is at
`MIN_REPLICAS = 2` and the load is at most 75. -/
theorem C13_noop_in_band_or_blocked_at_bound (s : health.HealthState) (cpuLoad : ℚ)
    (h : (35 ≤ cpuLoad ∧ cpuLoad ≤ 75) ∨ (s.currentReplicas = 10 ∧ 35 ≤ cpuLoad) ∨
      (s.currentReplicas = 2 ∧ cpuLoad ≤ 75)) :
    (health.tick cpuLoad s).currentReplicas = s.currentReplicas := by
  rw [tick_currentReplicas, scale_eq_guards]
  have hup : ¬ health.scaleUpCond cpuLoad s.currentReplicas := by
    rintro ⟨h75, hlt⟩
    rcases h with ⟨-, hle⟩ | ⟨heq, -⟩ | ⟨-, hle⟩
    · linarith
    · omega
    · linarith
  have hdown : ¬ health.scaleDownCond cpuLoad s.currentReplicas := by
    rintro ⟨h35, hgt⟩
    rcases h with ⟨hge, -⟩ | ⟨-, hge⟩ | ⟨heq, -⟩
    · linarith
    · linarith
    · omega
  rw [if_neg hup, if_neg hdown]

/-- C13 (amended) at counter 2 and load 20: the counter stays 2. -/
theorem C13_noop_in_band_or_blocked_at_bound_witness :
    (((35 : ℚ) ≤ 20 ∧ (20 : ℚ) ≤ 75) ∨
      (({ health.initState with currentReplicas := 2 } : health.HealthState).currentReplicas = 10
        ∧ (35 : ℚ) ≤ 20) ∨
      (({ health.initState with currentReplicas := 2 } : health.HealthState).currentReplicas = 2
        ∧ (20 : ℚ) ≤ 75)) ∧
    (health.tick 20 { health.initState with currentReplicas := 2 }).currentReplicas = 2 :=
  ⟨Or.inr (Or.inr ⟨rfl, by norm_num⟩),
    C13_noop_in_band_or_blocked_at_bound { health.initState with currentReplicas := 2 } 20
      (Or.inr (Or.inr ⟨rfl, by norm_num⟩))⟩

/-- C15: only one transition fires per tick: for every sampled load and every pre-tick
counter value, in range or not, the post-tick counter differs from the pre-tick one by
at most 1; the scale-up and the scale-down condition are never both satisfied; and the
post-tick counter is a function of the pair (sampled load, pre-tick counter) alone: two
states with the same counter get the same post-tick counter, whatever their gauges. -/
theorem C15_one_transition_per_tick (cpuLoad : ℚ) (s : health.HealthState) :
    |(health.tick cpuLoad s).currentReplicas - s.currentReplicas| ≤ 1 ∧
    ¬ (health.scaleUpCond cpuLoad s.currentReplicas ∧
        health.scaleDownCond cpuLoad s.currentReplicas) ∧
    (health.tick cpuLoad s).currentReplicas = health.scale cpuLoad s.currentReplicas ∧
    (∀ s' : health.HealthState, s'.currentReplicas = s.currentReplicas →
      (health.tick cpuLoad s').currentReplicas = (health.tick cpuLoad s).currentReplicas) := by
  refine ⟨?_, ?_, rfl, ?_⟩
  · rw [tick_currentReplicas]
    unfold health.scale
    split_ifs <;> simp
  · rintro ⟨⟨h75, -⟩, ⟨h35, -⟩⟩
    linarith
  · intro s' hs
    rw [tick_currentReplicas, tick_currentReplicas, hs]

/-- C15 for two states with counter 7 and different gauges, load 80: both ticks give
the same counter. -/
theorem C15_one_transition_per_tick_witness :
    (health.tick 80 { health.initState with currentReplicas := 7, CPUUtilizationGauge := 50 }).currentReplicas
      = (health.tick 80 { health.initState with currentReplicas := 7 }).currentReplicas :=
  (C15_one_transition_per_tick 80 { health.initState with currentReplicas := 7 }).2.2.2
    { health.initState with currentReplicas := 7, CPUUtilizationGauge := 50 } rfl

/-- Under loads all above 75 a run from a counter in `[2, 10]` adds one per tick up to
10. -/
theorem SimulateNodeScaling_high_loads (loads : List ℚ) :
    ∀ s : health.HealthState, 2 ≤ s.currentReplicas → s.currentReplicas ≤ 10 →
      (∀ l ∈ loads, l > 75) →
      (health.SimulateNodeScaling loads s).currentReplicas
        = min (s.currentReplicas + (loads.length : Int)) 10 := by
  induction loads with
  | nil =>
    intro s _ h10 _
    simp [health.SimulateNodeScaling, h10]
  | cons l rest ih =>
    intro s h2 h10 hall
    have hl : l > 75 := hall l (List.mem_cons_self _ _)
    have hrest : ∀ x ∈ rest, x > 75 := fun x hx => hall x (List.mem_cons_of_mem _ hx)
    have hstep : (health.tick l s).currentReplicas = min (s.currentReplicas + 1) 10 := by
      rw [tick_currentReplicas]
      unfold health.scale
      by_cases hc : s.currentReplicas < 10
      · rw [if_pos ⟨hl, hc⟩]; omega
      · have hno : ¬ (l < 35 ∧ s.currentReplicas > 2) := by rintro ⟨h35, -⟩; linarith
        rw [if_neg (fun hh => hc hh.2), if_neg hno]; omega
    have hrun : health.SimulateNodeScaling (l :: rest) s
        = health.SimulateNodeScaling rest (health.tick l s) := rfl
    rw [hrun, ih (health.tick l s) (by omega) (by omega) hrest, hstep]
    simp only [List.length_cons, Nat.cast_add, Nat.cast_one]
    omega

/-- Under loads all below 35 a run from a counter in `[2, 10]` removes one per tick down
to 2. -/
theorem SimulateNodeScaling_low_loads (loads : List ℚ) :
    ∀ s : health.HealthState, 2 ≤ s.currentReplicas → s.currentReplicas ≤ 10 →
      (∀ l ∈ loads, l < 35) →
      (health.SimulateNodeScaling loads s).currentReplicas
        = max (s.currentReplicas - (loads.length : Int)) 2 := by
  induction loads with
  | nil =>
    intro s h2 _ _
    simp [health.SimulateNodeScaling, h2]
  | cons l rest ih =>
    intro s h2 h10 hall
    have hl : l < 35 := hall l (List.mem_cons_self _ _)
    have hrest : ∀ x ∈ rest, x < 35 := fun x hx => hall x (List.mem_cons_of_mem _ hx)
    have hstep : (health.tick l s).currentReplicas = max (s.currentReplicas - 1) 2 := by
      rw [tick_currentReplicas]
      unfold health.scale
      have hno : ¬ (l > 75 ∧ s.currentReplicas < 10) := by rintro ⟨h75, -⟩; linarith
      by_cases hc : s.currentReplicas > 2
      · rw [if_neg hno, if_pos ⟨hl, hc⟩]; omega
      · rw [if_neg hno, if_neg (fun hh => hc hh.2)]; omega
    have hrun : health.SimulateNodeScaling (l :: rest) s
        = health.SimulateNodeScaling rest (health.tick l s) := rfl
    rw [hrun, ih (health.tick l s) (by omega) (by omega) hrest, hstep]
    simp only [List.length_cons, Nat.cast_add, Nat.cast_one]
    omega

/-- C19 (saturation): for every start counter `c` with `2 ≤ c ≤ 10`, after `n`
consecutive ticks whose loads are all above 75 the counter is `min (c + n) 10`, and
after `n` consecutive ticks whose loads are all below 35 it is `max (c - n) 2`; from
the initial value 3 a run of high-load ticks has counter 10 exactly when it has at
least 7 ticks, so 10 is reached after exactly 7 ticks and kept afterwards. -/
theorem C19_saturation (s : health.HealthState) (loads : List ℚ)
    (hc : 2 ≤ s.currentReplicas ∧ s.currentReplicas ≤ 10) :
    ((∀ l ∈ loads, l > 75) →
      (health.SimulateNodeScaling loads s).currentReplicas
        = min (s.currentReplicas + (loads.length : Int)) 10) ∧
    ((∀ l ∈ loads, l < 35) →
      (health.SimulateNodeScaling loads s).currentReplicas
        = max (s.currentReplicas - (loads.length : Int)) 2) ∧
    ((∀ l ∈ loads, l > 75) →
      ((health.SimulateNodeScaling loads health.initState).currentReplicas = 10
        ↔ 7 ≤ loads.length)) := by
  refine ⟨SimulateNodeScaling_high_loads loads s hc.1 hc.2,
    SimulateNodeScaling_low_loads loads s hc.1 hc.2, ?_⟩
  intro hall
  rw [SimulateNodeScaling_high_loads loads health.initState (by decide) (by decide) hall]
  have h3 : health.initState.currentReplicas = 3 := rfl
  rw [h3]
  omega

/-- C19 from the initial state under seven loads above 75: the counter is
`min (3 + 7) 10`. -/
theorem C19_saturation_witness :
    (2 ≤ health.initState.currentReplicas ∧ health.initState.currentReplicas ≤ 10) ∧
    (health.SimulateNodeScaling [80, 90, 76, 99, 85, 77, 95] health.initState).currentReplicas
      = min (health.initState.currentReplicas
          + (([80, 90, 76, 99, 85, 77, 95] : List ℚ).length : Int)) 10 :=
  ⟨by decide,
    (C19_saturation health.initState [80, 90, 76, 99, 85, 77, 95] (by decide)).1 (by
      intro l hl
      simp only [List.mem_cons, List.mem_singleton, List.not_mem_nil, or_false] at hl
      rcases hl with rfl | rfl | rfl | rfl | rfl | rfl | rfl <;> norm_num)⟩

/-! ## Aggregators: what `ReadyNodes` counts, and agreement of the two aggregators -/

/-- The inner loop of `main.go` adds the number of `("Ready", "True")` conditions of
the node to `ReadyNodes` and changes nothing else. -/
theorem main_nodeStep_eq (node : Node) (stats : main.ClusterHealth) :
    main.nodeStep stats node =
      { stats with
        ReadyNodes := stats.ReadyNodes + (readyTrueConditions node.Status.Conditions : Int) } := by
  unfold main.nodeStep readyTrueConditions
  generalize node.Status.Conditions = conds
  induction conds generalizing stats with
  | nil => simp
  | cons c rest ih =>
    rw [List.foldl_cons, ih]
    by_cases hc : c.Type_ = "Ready" ∧ c.Status = "True"
    · simp [main.conditionStep, hc, List.filter_cons]
      omega
    · simp [main.conditionStep, hc, List.filter_cons]

/-- The loop over the nodes in `main.go` adds the total number of `("Ready", "True")`
conditions to `ReadyNodes` and changes nothing else. -/
theorem main_nodes_foldl_eq (nodes : List Node) (stats : main.ClusterHealth) :
    nodes.foldl main.nodeStep stats =
      { stats with
        ReadyNodes := stats.ReadyNodes + (readyTrueConditionsTotal nodes : Int) } := by
  induction nodes generalizing stats with
  | nil => simp [readyTrueConditionsTotal]
  | cons n rest ih =>
    rw [List.foldl_cons, ih, main_nodeStep_eq]
    simp [readyTrueConditionsTotal]
    omega

/-- The loop over the pods in `main.go` adds the number of "Running" pods to
`RunningPods`, the number of "Failed" pods to `FailedPods`, and changes nothing else. -/
theorem main_pods_foldl_eq (pods : List Pod) (stats : main.ClusterHealth) :
    pods.foldl main.podStep stats =
      { stats with
        RunningPods := stats.RunningPods + (podsInPhase "Running" pods : Int)
        FailedPods := stats.FailedPods + (podsInPhase "Failed" pods : Int) } := by
  induction pods generalizing stats with
  | nil => simp [podsInPhase]
  | cons pod rest ih =>
    rw [List.foldl_cons, ih]
    by_cases hr : pod.Status.Phase = "Running"
    · have hf : ¬ pod.Status.Phase = "Failed" := by rw [hr]; decide
      simp [main.podStep, podsInPhase, hr, List.filter_cons]
      omega
    · by_cases hf : pod.Status.Phase = "Failed"
      · simp [main.podStep, podsInPhase, hr, hf, List.filter_cons]
        omega
      · simp [main.podStep, podsInPhase, hr, hf, List.filter_cons]

/-- The snapshot `checkClusterHealth` of `main.go` returns when both queries succeed. -/
theorem main_checkClusterHealth_ok {ε : Type} (nodes : List Node) (pods : List Pod) :
    main.checkClusterHealth ({ Nodes := .ok nodes, Pods := .ok pods } : Clientset ε) =
      (some { NodeCount := (nodes.length : Int)
              ReadyNodes := (readyTrueConditionsTotal nodes : Int)
              TotalPods := (pods.length : Int)
              RunningPods := (podsInPhase "Running" pods : Int)
              FailedPods := (podsInPhase "Failed" pods : Int) }, none) := by
  simp [main.checkClusterHealth, main_nodes_foldl_eq, main_pods_foldl_eq]

/-- A condition list has no more `("Ready", "True")` conditions than conditions of
Type "Ready". -/
theorem readyTrueConditions_le_readyTypeConditions (conds : List NodeCondition) :
    readyTrueConditions conds ≤ readyTypeConditions conds := by
  unfold readyTrueConditions readyTypeConditions
  induction conds with
  | nil => simp
  | cons c rest ih =>
    by_cases h1 : c.Type_ = "Ready"
    · by_cases h2 : c.Status = "True"
      · simp [List.filter_cons, h1, h2] at ih ⊢; omega
      · simp [List.filter_cons, h1, h2] at ih ⊢; omega
    · simp [List.filter_cons, h1] at ih ⊢; omega

/-- A node is ready, in the words of the specification, exactly when its condition
list holds at least one `("Ready", "True")` condition. -/
theorem isReadyNode_iff_pos (node : Node) :
    isReadyNode node = true ↔ 0 < readyTrueConditions node.Status.Conditions := by
  unfold isReadyNode readyTrueConditions
  rw [List.length_pos, List.any_eq_true]
  constructor
  · rintro ⟨c, hc, hp⟩ hnil
    have hmem : c ∈ List.filter (fun c => decide (c.Type_ = "Ready" ∧ c.Status = "True"))
        node.Status.Conditions := List.mem_filter.mpr ⟨hc, hp⟩
    rw [hnil] at hmem
    exact List.not_mem_nil _ hmem
  · intro hne
    obtain ⟨c, hc⟩ := List.exists_mem_of_ne_nil _ hne
    exact ⟨c, (List.mem_filter.mp hc).1, (List.mem_filter.mp hc).2⟩

/-- When no node carries more than one condition of Type "Ready", the total number of
`("Ready", "True")` conditions is the number of ready nodes, and it is at most the
number of nodes. -/
theorem readyTrueConditionsTotal_eq_readyNodeCount (nodes : List Node)
    (h : ∀ node ∈ nodes, readyTypeConditions node.Status.Conditions ≤ 1) :
    (readyTrueConditionsTotal nodes : Int) = readyNodeCount nodes ∧
      readyTrueConditionsTotal nodes ≤ nodes.length := by
  induction nodes with
  | nil => simp [readyTrueConditionsTotal, readyNodeCount]
  | cons n rest ih =>
    have hn : readyTrueConditions n.Status.Conditions ≤ 1 :=
      le_trans (readyTrueConditions_le_readyTypeConditions _) (h n (List.mem_cons_self _ _))
    have ih' := ih (fun x hx => h x (List.mem_cons_of_mem _ hx))
    have hiff := isReadyNode_iff_pos n
    unfold readyTrueConditionsTotal readyNodeCount at ih' ⊢
    by_cases hr : isReadyNode n = true
    · have hpos := hiff.mp hr
      simp only [List.map_cons, List.sum_cons, List.filter_cons, hr, if_true,
        List.length_cons]
      omega
    · have hzero : readyTrueConditions n.Status.Conditions = 0 := by
        by_contra hne
        exact hr (hiff.mpr (Nat.pos_of_ne_zero hne))
      simp only [List.map_cons, List.sum_cons, List.filter_cons, hr, hzero,
        List.length_cons]
      simp only [Bool.false_eq_true, if_false, zero_add]
      omega

/-- C17: `ReadyNodes` as computed by `CheckClusterHealth` (and by `checkClusterHealth`
of `main.go`) is the total number of `("Ready", "True")` conditions summed over the
condition lists of all nodes; consequently, when every node carries at most one
condition of Type "Ready", `ReadyNodes` is the number of ready nodes and
`ReadyNodes ≤ NodeCount`. -/
theorem C17_ready_nodes_counts_ready_true_conditions {ε : Type} (nodes : List Node)
    (pods : List Pod) (g : health.HealthState) :
    ∃ (s : health.ClusterHealth) (s' : main.ClusterHealth),
      (health.CheckClusterHealth ({ Nodes := .ok nodes, Pods := .ok pods } : Clientset ε) g).1
        = (some s, none) ∧
      main.checkClusterHealth ({ Nodes := .ok nodes, Pods := .ok pods } : Clientset ε)
        = (some s', none) ∧
      s.ReadyNodes = (readyTrueConditionsTotal nodes : Int) ∧
      s'.ReadyNodes = (readyTrueConditionsTotal nodes : Int) ∧
      ((∀ node ∈ nodes, readyTypeConditions node.Status.Conditions ≤ 1) →
        (s.ReadyNodes = readyNodeCount nodes ∧ s.ReadyNodes ≤ s.NodeCount) ∧
        (s'.ReadyNodes = readyNodeCount nodes ∧ s'.ReadyNodes ≤ s'.NodeCount)) := by
  refine ⟨_, _, by rw [health_CheckClusterHealth_ok], main_checkClusterHealth_ok nodes pods,
    rfl, rfl, ?_⟩
  intro h
  have hk := readyTrueConditionsTotal_eq_readyNodeCount nodes h
  simp only
  refine ⟨⟨hk.1, ?_⟩, ⟨hk.1, ?_⟩⟩ <;> omega

/-- C17 for four nodes of which three report Ready/True, each with one condition of
Type "Ready": in both snapshots `ReadyNodes` is the number of ready nodes and at most
`NodeCount`. -/
theorem C17_ready_nodes_counts_ready_true_conditions_witness :
    (∀ node ∈ [mkNode [("Ready", "True")], mkNode [("Ready", "True")],
               mkNode [("Ready", "False")],
               mkNode [("DiskPressure", "False"), ("Ready", "True")]],
        readyTypeConditions node.Status.Conditions ≤ 1) ∧
    readyNodeCount [mkNode [("Ready", "True")], mkNode [("Ready", "True")],
                    mkNode [("Ready", "False")],
                    mkNode [("DiskPressure", "False"), ("Ready", "True")]] = 3 ∧
    ∃ (s : health.ClusterHealth) (s' : main.ClusterHealth),
      (health.CheckClusterHealth
          ({ Nodes := .ok [mkNode [("Ready", "True")], mkNode [("Ready", "True")],
                           mkNode [("Ready", "False")],
                           mkNode [("DiskPressure", "False"), ("Ready", "True")]],
             Pods := .ok [] } : Clientset String) health.initState).1 = (some s, none) ∧
      main.checkClusterHealth
          ({ Nodes := .ok [mkNode [("Ready", "True")], mkNode [("Ready", "True")],
                           mkNode [("Ready", "False")],
                           mkNode [("DiskPressure", "False"), ("Ready", "True")]],
             Pods := .ok [] } : Clientset String) = (some s', none) ∧
      (s.ReadyNodes = readyNodeCount [mkNode [("Ready", "True")], mkNode [("Ready", "True")],
                        mkNode [("Ready", "False")],
                        mkNode [("DiskPressure", "False"), ("Ready", "True")]] ∧
        s.ReadyNodes ≤ s.NodeCount) ∧
      (s'.ReadyNodes = readyNodeCount [mkNode [("Ready", "True")], mkNode [("Ready", "True")],
                        mkNode [("Ready", "False")],
                        mkNode [("DiskPressure", "False"), ("Ready", "True")]] ∧
        s'.ReadyNodes ≤ s'.NodeCount) := by
  obtain ⟨s, s', hs, hs', -, -, himp⟩ :=
    C17_ready_nodes_counts_ready_true_conditions (ε := String)
      [mkNode [("Ready", "True")], mkNode [("Ready", "True")],
       mkNode [("Ready", "False")],
       mkNode [("DiskPressure", "False"), ("Ready", "True")]] [] health.initState
  have hpre := himp (by decide)
  exact ⟨by decide, by decide, s, s', hs, hs', hpre.1, hpre.2⟩

/-- C18: the two aggregators agree: for every status source, `checkClusterHealth` of
`main.go` and `CheckClusterHealth` of `monitor.go` return the same error (the
node-query error when the node query fails, otherwise the pod-query error when the pod
query fails, otherwise none) and, on success, snapshots with the same five counts. -/
theorem C18_aggregators_agree {ε : Type} (c : Clientset ε) (g : health.HealthState) :
    (main.checkClusterHealth c).2 = (health.CheckClusterHealth c g).1.2 ∧
    (main.checkClusterHealth c).1.map main.ClusterHealth.counts
      = (health.CheckClusterHealth c g).1.1.map health.ClusterHealth.counts ∧
    (∀ e, c.Nodes = .error e →
      (main.checkClusterHealth c).2 = some e ∧ (main.checkClusterHealth c).1 = none ∧
      (health.CheckClusterHealth c g).1 = (none, some e)) ∧
    (∀ nodes e, c.Nodes = .ok nodes → c.Pods = .error e →
      (main.checkClusterHealth c).2 = some e ∧ (main.checkClusterHealth c).1 = none ∧
      (health.CheckClusterHealth c g).1 = (none, some e)) ∧
    (∀ nodes pods, c.Nodes = .ok nodes → c.Pods = .ok pods →
      ∃ s s', main.checkClusterHealth c = (some s', none) ∧
        (health.CheckClusterHealth c g).1 = (some s, none) ∧
        s'.counts = s.counts) := by
  obtain ⟨cn, cp⟩ := c
  cases cn with
  | error en => simp [health.CheckClusterHealth, main.checkClusterHealth]
  | ok nodes =>
    cases cp with
    | error ep => simp [health.CheckClusterHealth, main.checkClusterHealth]
    | ok pods =>
      rw [health_CheckClusterHealth_ok, main_checkClusterHealth_ok]
      simp [health.ClusterHealth.counts, main.ClusterHealth.counts]

/-- C18 where both queries fail: both aggregators return the node-query error. -/
theorem C18_aggregators_agree_witness :
    (main.checkClusterHealth
        ({ Nodes := .error "nodes: timeout", Pods := .error "pods: forbidden" } :
          Clientset String)).2 = some "nodes: timeout" ∧
    (main.checkClusterHealth
        ({ Nodes := .error "nodes: timeout", Pods := .error "pods: forbidden" } :
          Clientset String)).1 = none ∧
    (health.CheckClusterHealth
        ({ Nodes := .error "nodes: timeout", Pods := .error "pods: forbidden" } :
          Clientset String) health.initState).1 = (none, some "nodes: timeout") :=
  (C18_aggregators_agree
      ({ Nodes := .error "nodes: timeout", Pods := .error "pods: forbidden" } :
        Clientset String) health.initState).2.2.1 "nodes: timeout" rfl

/-! ## The load sampler in `float64` arithmetic -/

/-- A `float64` value of magnitude at least `2^52 / 2^n` is an integer multiple of
`1 / 2^n`. -/
theorem isFloat64_grid (n : ℕ) (q : ℚ) (hF : IsFloat64 q) (hq : (2 : ℚ) ^ 52 ≤ |q| * 2 ^ n) :
    ∃ z : ℤ, q * 2 ^ n = (z : ℚ) := by
  obtain ⟨m, e, hm, -, -, rfl⟩ := hF
  by_cases he : 0 ≤ e + (n : ℤ)
  · obtain ⟨k, hk⟩ := Int.eq_ofNat_of_zero_le he
    refine ⟨m * 2 ^ k, ?_⟩
    have h2 : (2 : ℚ) ^ e * (2 : ℚ) ^ n = (2 : ℚ) ^ k := by
      rw [← zpow_natCast (2 : ℚ) n, ← zpow_add₀ (by norm_num : (2 : ℚ) ≠ 0), hk, zpow_natCast]
    push_cast
    rw [mul_assoc, h2]
  · exfalso
    push_neg at he
    have h2 : (2 : ℚ) ^ e * (2 : ℚ) ^ n ≤ 1 / 2 := by
      rw [← zpow_natCast (2 : ℚ) n, ← zpow_add₀ (by norm_num : (2 : ℚ) ≠ 0)]
      have : (2 : ℚ) ^ (e + (n : ℤ)) ≤ (2 : ℚ) ^ (-1 : ℤ) :=
        zpow_le_zpow_right₀ (by norm_num) (by omega)
      simpa using this
    have hpos : (0 : ℚ) < (2 : ℚ) ^ e := zpow_pos (by norm_num) _
    have hm' : |(m : ℚ)| < 2 ^ 53 := by
      have : ((|m| : ℤ) : ℚ) < ((2 ^ 53 : ℤ) : ℚ) := Int.cast_lt.mpr hm
      simpa using this
    have habs : |(m : ℚ) * (2 : ℚ) ^ e| = |(m : ℚ)| * (2 : ℚ) ^ e := by
      rw [abs_mul, abs_of_pos hpos]
    rw [habs, mul_assoc] at hq
    have hnn : (0 : ℚ) ≤ |(m : ℚ)| := abs_nonneg _
    have hpp : (0 : ℚ) < (2 : ℚ) ^ e * (2 : ℚ) ^ n := by positivity
    nlinarith

/-- Rounding does not cross a `float64` value above the exact result. -/
theorem isRounded_le_float (x y t : ℚ) (ht : IsRounded x t) (hy : IsFloat64 y) (hxy : x ≤ y) :
    t ≤ y := by
  by_contra hlt
  push_neg at hlt
  have h := ht.2 y hy
  rw [abs_of_pos (by linarith : 0 < t - x), abs_of_nonneg (by linarith : 0 ≤ y - x)] at h
  linarith

/-- Rounding does not cross a `float64` value below the exact result. -/
theorem isRounded_ge_float (x y t : ℚ) (ht : IsRounded x t) (hy : IsFloat64 y) (hyx : y ≤ x) :
    y ≤ t := by
  by_contra hlt
  push_neg at hlt
  have h := ht.2 y hy
  rw [abs_of_neg (by linarith : t - x < 0), abs_of_nonpos (by linarith : y - x ≤ 0)] at h
  linarith

/-- An integer below `2^53` in magnitude divided by `2^k`, `k ≤ 1074`, is a `float64`
value. -/
theorem isFloat64_of_int_div (z : ℤ) (k : ℕ) (hz : |z| < 2 ^ 53) (hk : k ≤ 1074) :
    IsFloat64 ((z : ℚ) / 2 ^ k) := by
  refine ⟨z, -(k : ℤ), hz, by omega, by omega, ?_⟩
  rw [zpow_neg, zpow_natCast, div_eq_mul_inv]

/-- The largest `float64` value below 1 is `1 - 1/2^53`. -/
theorem isFloat64_lt_one (r : ℚ) (hr : IsFloat64 r) (h1 : r < 1) :
    r ≤ 1 - 1 / 2 ^ 53 := by
  by_cases hhalf : r < 1 / 2
  · have : (1 : ℚ) / 2 ≤ 1 - 1 / 2 ^ 53 := by norm_num
    linarith
  · push_neg at hhalf
    have hpos : 0 ≤ r := by linarith
    obtain ⟨z, hz⟩ := isFloat64_grid 53 r hr (by rw [abs_of_nonneg hpos]; linarith)
    have hzlt : (z : ℚ) < ((2 ^ 53 : ℤ) : ℚ) := by
      rw [← hz]; push_cast; linarith
    have hz' : z < 2 ^ 53 := Int.cast_lt.mp hzlt
    have hz'' : z ≤ 2 ^ 53 - 1 := by omega
    have hzle : (z : ℚ) ≤ ((2 ^ 53 - 1 : ℤ) : ℚ) := Int.cast_le.mpr hz''
    push_cast at hzle
    rw [← hz] at hzle
    linarith

/-- For a grid point `T` in `[65, 128]` (where `float64` values are `1/2^46` apart), an
exact value at most `T - 5/2^49` rounds to at most `T - 1/2^46`. -/
theorem isRounded_below_top (T : ℚ) (zT : ℤ) (hT : T * 2 ^ 46 = (zT : ℚ)) (h65 : 65 ≤ T)
    (h128 : T ≤ 128) (x t : ℚ) (hx : x ≤ T - 5 / 2 ^ 49) (ht : IsRounded x t) :
    t ≤ T - 1 / 2 ^ 46 := by
  have hy0 : IsFloat64 (T - 1 / 2 ^ 46) := by
    have hrep : T - 1 / 2 ^ 46 = ((zT - 1 : ℤ) : ℚ) / 2 ^ 46 := by
      push_cast; rw [← hT]; ring
    rw [hrep]
    apply isFloat64_of_int_div _ _ _ (by norm_num)
    have hlo : ((65 * 2 ^ 46 : ℤ) : ℚ) ≤ (zT : ℚ) := by rw [← hT]; push_cast; linarith
    have hhi : (zT : ℚ) ≤ ((128 * 2 ^ 46 : ℤ) : ℚ) := by rw [← hT]; push_cast; linarith
    have hlo' := Int.cast_le.mp hlo
    have hhi' := Int.cast_le.mp hhi
    rw [abs_lt]
    constructor <;> omega
  by_contra hlt
  push_neg at hlt
  -- `t` is on the grid of step `2^-46`, so it is at least `T`
  have ht64 : (64 : ℚ) ≤ t := by
    have : (1 : ℚ) / 2 ^ 46 ≤ 1 := by norm_num
    linarith
  obtain ⟨z, hz⟩ := isFloat64_grid 46 t ht.1
    (by rw [abs_of_nonneg (by linarith : (0 : ℚ) ≤ t)]; linarith)
  have hzgt : ((zT - 1 : ℤ) : ℚ) < (z : ℚ) := by
    rw [← hz]; push_cast; rw [← hT]
    have : (T - 1 / 2 ^ 46) * 2 ^ 46 < t * 2 ^ 46 := by
      apply mul_lt_mul_of_pos_right hlt (by positivity)
    have h2 : (T - 1 / 2 ^ 46) * 2 ^ 46 = T * 2 ^ 46 - 1 := by ring
    linarith
  have hzge : zT ≤ z := by
    have := Int.cast_lt.mp hzgt
    omega
  have htT : T ≤ t := by
    have h1 : (zT : ℚ) ≤ (z : ℚ) := Int.cast_le.mpr hzge
    rw [← hz, ← hT] at h1
    exact le_of_mul_le_mul_right h1 (by positivity)
  have h := ht.2 _ hy0
  have hc : (5 : ℚ) / 2 ^ 49 > 0 := by positivity
  rw [abs_of_pos (by linarith : 0 < t - x)] at h
  by_cases hxy : T - 1 / 2 ^ 46 ≤ x
  · rw [abs_of_nonpos (by linarith : T - 1 / 2 ^ 46 - x ≤ 0)] at h
    have hnum : (1 : ℚ) / 2 ^ 46 - 5 / 2 ^ 49 < 5 / 2 ^ 49 := by norm_num
    linarith
  · push_neg at hxy
    rw [abs_of_pos (by linarith : 0 < T - 1 / 2 ^ 46 - x)] at h
    linarith

/-- C16: the reference load sampler returns a value in `[20, 100)`: for every draw `r`
of `rand.Float64`, a `float64` value with `0 ≤ r < 1`, every `float64` result `cpuLoad`
of `r*80 + 20` satisfies `20 ≤ cpuLoad < 100`, so it lies in the range `[0, 100]` of the
sampler contract; the exact value `r*80 + 20` satisfies the same bounds. -/
theorem C16_sampled_load_range (r cpuLoad : ℚ) (hr : IsFloat64 r) (h0 : 0 ≤ r) (h1 : r < 1)
    (hl : health.IsSampledLoad r cpuLoad) :
    (20 ≤ cpuLoad ∧ cpuLoad < 100) ∧ (0 ≤ cpuLoad ∧ cpuLoad ≤ 100) ∧
      (20 ≤ r * 80 + 20 ∧ r * 80 + 20 < 100) := by
  have hmax := isFloat64_lt_one r hr h1
  have hf0 : IsFloat64 0 := ⟨0, 0, by norm_num, by norm_num, by norm_num, by simp⟩
  have hf20 : IsFloat64 20 := ⟨20, 0, by norm_num, by norm_num, by norm_num, by simp⟩
  have hnum : (80 : ℚ) * (1 - 1 / 2 ^ 53) = 80 - 5 / 2 ^ 49 := by norm_num
  have hprod : r * 80 ≤ 80 - 5 / 2 ^ 49 := by rw [← hnum]; linarith
  have hsmall : (0 : ℚ) < 1 / 2 ^ 46 := by positivity
  have hkey : 20 ≤ cpuLoad ∧ cpuLoad ≤ 100 - 1 / 2 ^ 46 := by
    rcases hl with ⟨t, ht, hload⟩ | hload
    · have ht0 : 0 ≤ t := isRounded_ge_float _ 0 t ht hf0 (by linarith)
      have ht80 : t ≤ 80 - 1 / 2 ^ 46 :=
        isRounded_below_top 80 (80 * 2 ^ 46) (by push_cast; ring) (by norm_num) (by norm_num)
          _ t hprod ht
      refine ⟨isRounded_ge_float _ 20 cpuLoad hload hf20 (by linarith), ?_⟩
      exact isRounded_below_top 100 (100 * 2 ^ 46) (by push_cast; ring) (by norm_num)
        (by norm_num) _ cpuLoad (by linarith [show (0 : ℚ) < 5 / 2 ^ 49 by positivity,
          show (5 : ℚ) / 2 ^ 49 < 1 / 2 ^ 46 by norm_num]) hload
    · refine ⟨isRounded_ge_float _ 20 cpuLoad hload hf20 (by linarith), ?_⟩
      exact isRounded_below_top 100 (100 * 2 ^ 46) (by push_cast; ring) (by norm_num)
        (by norm_num) _ cpuLoad (by linarith) hload
  refine ⟨⟨hkey.1, by linarith⟩, ⟨by linarith, by linarith⟩, ⟨by linarith, by linarith⟩⟩

/-- C16 for the draw `r = 1/2`: the product rounds to 40 and the sum to 60, and
`20 ≤ 60 < 100`. -/
theorem C16_sampled_load_range_witness :
    (IsFloat64 (1 / 2) ∧ (0 : ℚ) ≤ 1 / 2 ∧ (1 / 2 : ℚ) < 1 ∧ health.IsSampledLoad (1 / 2) 60) ∧
    ((20 : ℚ) ≤ 60 ∧ (60 : ℚ) < 100) := by
  have hhalf : IsFloat64 (1 / 2) :=
    ⟨1, -1, by norm_num, by norm_num, by norm_num, by norm_num⟩
  have h40 : IsFloat64 40 := ⟨40, 0, by norm_num, by norm_num, by norm_num, by simp⟩
  have h60 : IsFloat64 60 := ⟨60, 0, by norm_num, by norm_num, by norm_num, by simp⟩
  have hs : health.IsSampledLoad (1 / 2) 60 :=
    Or.inl ⟨40, ⟨h40, fun z _ => by norm_num⟩, ⟨h60, fun z _ => by norm_num⟩⟩
  exact ⟨⟨hhalf, by norm_num, by norm_num, hs⟩,
    (C16_sampled_load_range (1 / 2) 60 hhalf (by norm_num) (by norm_num) hs).1⟩
